import Mathlib

/-!
Verification of the record-printer program (src/test-workspace/src/main.rs).

The program builds a fixed vector of three `Token` records, iterates over
`tk.iter().enumerate().peekable()` and prints one formatted line per record
with `println!("Token {}: length = {}, data = {}", i, token.length, token.data)`.

The embedding below follows the Rust source: the struct, the literal list,
Rust's `Iterator::enumerate`, the `Peekable` adapter with its stored
`peeked : Option (Option item)` slot, and the print loop as a fold producing
an explicit trace of output effects.  Write failures (the only failure the
runtime can produce, through the panic of `println!`) are modelled by a
predicate saying which of the sequential writes succeed.
-/

/-- The `Token` struct of the source: two `u8` fields, embedded as natural
numbers; the u8 range constraint is proved of the program's values. -/
structure Token where
  length : Nat
  data : Nat
deriving DecidableEq, Repr

/-- The literal vector `tk` built at the start of `main`. -/
def tk : List Token :=
  [Token.mk 5 10, Token.mk 3 20, Token.mk 8 30]

/-- Rust's `Iterator::enumerate` starting from a given counter value. -/
def enumerateFrom {α : Type} : Nat → List α → List (Nat × α)
  | _, [] => []
  | n, x :: xs => (n, x) :: enumerateFrom (n + 1) xs

/-- Rust's `Iterator::enumerate`: pair each element with its zero-based
position, in order. -/
def enumerate {α : Type} (l : List α) : List (Nat × α) :=
  enumerateFrom 0 l

/-- Rust's `Peekable` adapter: the underlying iterator (a list of the
remaining items) together with the `peeked : Option<Option<Item>>` slot. -/
structure Peekable (α : Type) where
  iter : List α
  peeked : Option (Option α)
deriving DecidableEq, Repr

/-- One step of the underlying list iterator (`Iterator::next`). -/
def listNext {α : Type} : List α → Option α × List α
  | [] => (none, [])
  | x :: xs => (some x, xs)

/-- `Peekable::next`: return the stashed peeked element if present,
otherwise pull from the underlying iterator. -/
def Peekable.next {α : Type} : Peekable α → Option α × Peekable α
  | Peekable.mk it (some v) => (v, Peekable.mk it none)
  | Peekable.mk it none =>
      match listNext it with
      | (v, it2) => (v, Peekable.mk it2 none)

/-- The `Peekable` produced by `.peekable()`: nothing peeked yet. -/
def mkPeekable {α : Type} (l : List α) : Peekable α :=
  Peekable.mk l none

/-- Fuelled draining of a peekable iterator: repeatedly call `next` until it
yields `none`, collecting the items.  The fuel is only a termination device;
`Peekable.drain` supplies more fuel than the iterator can ever consume. -/
def drainAux {α : Type} : Nat → Peekable α → List α
  | 0, _ => []
  | Nat.succ fuel, p =>
      match p.next with
      | (none, _) => []
      | (some v, p2) => v :: drainAux fuel p2

/-- The full element sequence a `for` loop consumes from a peekable
iterator. -/
def Peekable.drain {α : Type} (p : Peekable α) : List α :=
  drainAux (p.iter.length + 2) p

/-- The formatted report line: `println!("Token {}: length = {}, data = {}",
i, token.length, token.data)`. -/
def formatLine (i : Nat) (t : Token) : String :=
  "Token " ++ toString i ++ ": length = " ++ toString t.length ++
    ", data = " ++ toString t.data

/-- The observable effects the program can perform: it only ever writes a
line to standard output. -/
inductive Effect where
  | writeStdout : String → Effect
deriving DecidableEq, Repr

/-- The program state threaded through the loop: the record sequence (never
written to by the loop body, which only reads it) and the trace of emitted
effects. -/
structure ProgState where
  tokens : List Token
  effects : List Effect
deriving DecidableEq, Repr

/-- One iteration of the `for (i, token) in ...` loop body. -/
def printStep (s : ProgState) (p : Nat × Token) : ProgState :=
  ProgState.mk s.tokens (s.effects ++ [Effect.writeStdout (formatLine p.1 p.2)])

/-- The whole of `main`: build `tk`, then fold the print step over the
elements drained from `tk.iter().enumerate().peekable()`. -/
def mainRun : ProgState :=
  List.foldl printStep (ProgState.mk tk [])
    (Peekable.drain (mkPeekable (enumerate tk)))

/-- The text carried by an output effect. -/
def lineOf : Effect → String
  | Effect.writeStdout s => s

/-- The lines the program writes to standard output, in order. -/
def programLines : List String :=
  List.map lineOf mainRun.effects

/-- The same loop written with a plain `enumerate()` iterator, without the
`.peekable()` adapter, for the equivalence claim. -/
def mainRunPlain : ProgState :=
  List.foldl printStep (ProgState.mk tk []) (enumerate tk)

/-- The program reads no command-line arguments and consults no environment
variables: its output is a function that ignores both. -/
def programOutput (args : List String) (env : List (String × String)) :
    List String :=
  programLines

/-- Exit status of a run: Rust's `main` returns normally (status 0) or the
`println!` panic aborts the process with a non-zero status. -/
inductive ExitStatus where
  | success
  | failure
deriving DecidableEq, Repr

/-- Sequentially attempt the writes of the given lines; `canWrite k` says
whether the k-th write (0-based over the whole run) succeeds.  A failing
write emits nothing further and the run ends with a non-zero status, as the
panic of `println!` does. -/
def writeAll (canWrite : Nat → Bool) : List String → Nat → List String × ExitStatus
  | [], _ => ([], ExitStatus.success)
  | l :: ls, k =>
      if canWrite k then
        match writeAll canWrite ls (k + 1) with
        | (ws, st) => (l :: ws, st)
      else ([], ExitStatus.failure)

/-- Run the program under a model of standard output where the k-th write
succeeds iff `canWrite k`; result: lines actually written, and exit status. -/
def runWith (canWrite : Nat → Bool) : List String × ExitStatus :=
  writeAll canWrite programLines 0

-- Helper lemmas shared by the claim theorems.

/-- Helper: the emitted lines, computed. -/
lemma programLines_eq :
    programLines =
      ["Token 0: length = 5, data = 10",
       "Token 1: length = 3, data = 20",
       "Token 2: length = 8, data = 30"] := rfl

/-- Helper: draining a fresh peekable with enough fuel returns the underlying
list unchanged. -/
lemma drainAux_mk {α : Type} (l : List α) :
    ∀ n : Nat, l.length < n → drainAux n (mkPeekable l) = l := by
  induction l with
  | nil =>
      intro n hn
      cases n with
      | zero => cases hn
      | succ m => rfl
  | cons x xs ih =>
      intro n hn
      cases n with
      | zero => cases hn
      | succ m =>
          have hm : xs.length < m := by
            simpa [List.length_cons, Nat.succ_lt_succ_iff] using hn
          simp [drainAux, Peekable.next, mkPeekable, listNext]
          exact ih m hm

/-- Helper: a `for` loop over `.peekable()` that never peeks consumes exactly
the underlying sequence. -/
lemma drain_mk {α : Type} (l : List α) : (mkPeekable l).drain = l := by
  have h : l.length < (mkPeekable l).iter.length + 2 := by
    simp [mkPeekable]
  exact drainAux_mk l _ h

/-- C1: running the program writes exactly the three lines
`Token 0: length = 5, data = 10`, `Token 1: length = 3, data = 20`,
`Token 2: length = 8, data = 30`, in that order, and nothing else. -/
theorem output_exact :
    programLines =
      ["Token 0: length = 5, data = 10",
       "Token 1: length = 3, data = 20",
       "Token 2: length = 8, data = 30"] :=
  programLines_eq

/-- C2: the program constructs an ordered sequence of exactly three records
with literal values (5,10), (3,20), (8,30) in this order. -/
theorem tk_literal :
    tk = [Token.mk 5 10, Token.mk 3 20, Token.mk 8 30] ∧ tk.length = 3 :=
  ⟨rfl, rfl⟩

/-- C3: for every position i of the enumerated sequence, the index component
of the i-th pair equals i, and the pairing step is exactly the zip of each
record with its zero-based position in insertion order. -/
theorem enumerate_index (i : Nat) (h : i < (enumerate tk).length) :
    ((enumerate tk).get ⟨i, h⟩).1 = i ∧ enumerate tk = tk.enum := by
  refine ⟨?_, rfl⟩
  have h3 : i < 3 := by simpa [enumerate, enumerateFrom, tk] using h
  interval_cases i <;> rfl

/-- Witness for C3 at the concrete position 2. -/
theorem enumerate_index_witness :
    ((enumerate tk).get ⟨2, by decide⟩).1 = 2 ∧ enumerate tk = tk.enum :=
  enumerate_index 2 (by decide)

/-- C4: the output is a fixed constant, identical across any two executions
whatever the command-line arguments or environment, neither of which is
consulted. -/
theorem output_deterministic (a1 a2 : List String)
    (e1 e2 : List (String × String)) :
    programOutput a1 e1 = programOutput a2 e2 := rfl

/-- C5: when every write succeeds, the program writes all three lines and
terminates with exit status 0, with success reported only after all three
lines were emitted. -/
theorem success_run (c : Nat → Bool) (h : ∀ k, c k = true) :
    runWith c = (programLines, ExitStatus.success) ∧ programLines.length = 3 := by
  refine ⟨?_, rfl⟩
  simp [runWith, programLines_eq, writeAll, h] <;> decide

/-- Witness for C5 with an always-succeeding output stream. -/
theorem success_run_witness :
    runWith (fun _ => true) = (programLines, ExitStatus.success) ∧
      programLines.length = 3 :=
  success_run (fun _ => true) (fun _ => rfl)

/-- C6: a failed write is the one and only source of a non-zero exit status,
and the first failed write aborts the run immediately: exactly the lines
before it were written. -/
theorem failure_aborts (c : Nat → Bool) :
    ((runWith c).2 = ExitStatus.failure ↔ ∃ k, k < 3 ∧ c k = false) ∧
    (∀ k, k < 3 → c k = false → (∀ j, j < k → c j = true) →
      runWith c = (List.take k programLines, ExitStatus.failure)) := by
  have e0 := Bool.dichotomy (c 0)
  have e1 := Bool.dichotomy (c 1)
  have e2 := Bool.dichotomy (c 2)
  constructor
  · constructor
    · intro hfail
      rcases e0 with h0 | h0
      · exact ⟨0, by omega, h0⟩
      rcases e1 with h1 | h1
      · exact ⟨1, by omega, h1⟩
      rcases e2 with h2 | h2
      · exact ⟨2, by omega, h2⟩
      exfalso
      simp [runWith, programLines_eq, writeAll, h0, h1, h2] at hfail
    · rintro ⟨k, hk, hck⟩
      interval_cases k
      · simp [runWith, programLines_eq, writeAll, hck]
      · rcases e0 with h0 | h0
        · simp [runWith, programLines_eq, writeAll, h0]
        · simp [runWith, programLines_eq, writeAll, h0, hck]
      · rcases e0 with h0 | h0
        · simp [runWith, programLines_eq, writeAll, h0]
        · rcases e1 with h1 | h1
          · simp [runWith, programLines_eq, writeAll, h0, h1]
          · simp [runWith, programLines_eq, writeAll, h0, h1, hck]
  · intro k hk hck hprev
    interval_cases k
    · simp [runWith, programLines_eq, writeAll, hck] <;> decide
    · have h0 : c 0 = true := hprev 0 (by omega)
      simp [runWith, programLines_eq, writeAll, h0, hck] <;> decide
    · have h0 : c 0 = true := hprev 0 (by omega)
      have h1 : c 1 = true := hprev 1 (by omega)
      simp [runWith, programLines_eq, writeAll, h0, h1, hck] <;> decide

/-- Witness for C6: with a stream whose second write fails, the run writes
exactly the first line and exits with a non-zero status. -/
theorem failure_aborts_witness :
    runWith (fun k => decide (k = 0)) =
      (List.take 1 programLines, ExitStatus.failure) :=
  (failure_aborts (fun k => decide (k = 0))).2 1 (by omega) (by decide)
    (fun j hj => by interval_cases j; decide)

/-- C7: in a successful run the number of emitted lines equals the number of
records in the fixed sequence, namely 3. -/
theorem line_count :
    programLines.length = tk.length ∧ tk.length = 3 := ⟨rfl, rfl⟩

/-- C8: both fields of every record in the sequence are unsigned 8-bit
values, lying in [0, 255]; the sequence the loop holds at the end is the
unchanged original, so this holds for the program's whole lifetime. -/
theorem fields_are_bytes (t : Token) (h : t ∈ tk) :
    t.length ≤ 255 ∧ t.data ≤ 255 := by
  fin_cases h <;> exact ⟨by decide, by decide⟩

/-- Witness for C8 at the first record. -/
theorem fields_are_bytes_witness :
    (Token.mk 5 10).length ≤ 255 ∧ (Token.mk 5 10).data ≤ 255 :=
  fields_are_bytes (Token.mk 5 10) (by decide)

/-- C9: the record sequence held in the final state is the one constructed at
the start (no mutation), and the effect trace consists of exactly the three
standard-output writes and nothing else. -/
theorem no_mutation_only_stdout :
    mainRun.tokens = tk ∧
      mainRun.effects = List.map Effect.writeStdout programLines :=
  ⟨rfl, rfl⟩

/-- C10: the `.peekable()` adapter is never peeked, so the loop consumes
exactly the enumerated sequence and the program run is identical to the same
loop written over a plain `enumerate()` iterator. -/
theorem peekable_equiv :
    (mkPeekable (enumerate tk)).drain = enumerate tk ∧ mainRun = mainRunPlain :=
  ⟨drain_mk (enumerate tk), by rfl⟩
